import Mathlib

/-!
Verification development for the sqs-ui queue-session component.

The definitions below are a shallow embedding of the Go code in
`internal/service/sqs.go` and `internal/handler/api.go`:

* `receiveLoopAux` / `receiveAllModel` embed `SQSService.ReceiveAll`
  (the batched fetch engine).  The interaction with the backend and the
  request context is abstracted into a trace `env : Nat → Step`: at each
  loop iteration exactly one of the following happens first — the
  context's Done channel is already closed (`Step.ctxDone`), or the
  single `ReceiveMessage` call returns a batch of messages
  (`Step.batch`), a deadline/cancellation error (`Step.errTimeout`), or
  any other error (`Step.errOther`).
* `sendInput` / `SendModel` embed `SQSService.Send`; `isFIFO` embeds the
  `isFIFO` helper.
* `InfoModel` embeds `SQSService.Info`; the two network calls
  (`GetQueueUrl`, `GetQueueAttributes`) are oracles passed as `Except`
  arguments, with the attribute counters modelled after parsing
  (`strconv.ParseInt` is abstracted to already-parsed integers).
* `handleSendModel`, `handleMessagesModel`, `handleChangeQueueModel`
  embed the HTTP handlers in `internal/handler/api.go`.

Machine-level effects are tracked explicitly: each operation also
reports the list (or count) of backend SDK calls it issues, so that
claims of the form "no backend call is attempted" are statable.
-/

deriving instance DecidableEq for Except

/-- A received message, from the fields the code dereferences
(`*m.MessageId`, `*m.Body`) and stores into the result map. -/
structure Msg where
  messageId : String
  body : String
deriving DecidableEq, Repr

/-- What happens first at one iteration of the `ReceiveAll` loop:
either `ctx.Done()` is already closed when the `select` runs, or the
`doReceive` call returns (a batch, a deadline/cancellation error, or
another error).  The `String` payloads carry the underlying error text. -/
inductive Step where
  | ctxDone : Step
  | batch (msgs : List Msg) : Step
  | errTimeout (e : String) : Step
  | errOther (e : String) : Step
deriving DecidableEq, Repr

/-- Whether a step is one of the deadline/cancellation events
(`ctx.Done()` fired, or `errors.Is(err, context.DeadlineExceeded) ||
errors.Is(err, context.Canceled)`). -/
def Step.isTimeoutEvent : Step → Bool
  | .ctxDone => true
  | .errTimeout _ => true
  | _ => false

/-- Outcome of `ReceiveAll`, following its return statements:
`ok` is `return allMsgs, nil`; `notConfigured` is the
`"no active queue configured, try to fetch queue info first"` error;
`timedOut` is `"receive operation timed out: %w"`;
`failed e` is `"failed to receive messages: %w"` wrapping `e`. -/
inductive FetchOutcome where
  | ok (msgs : List Msg) : FetchOutcome
  | notConfigured : FetchOutcome
  | timedOut : FetchOutcome
  | failed (e : String) : FetchOutcome
deriving DecidableEq, Repr

/-- The `for iteration := 1; iteration <= maxIterations; iteration++`
loop of `ReceiveAll`, with `rem` the number of remaining iterations
(`maxIterations - iteration + 1`), `iter` the current iteration number
and `acc` the accumulator `allMsgs`.  The second component counts the
`ReceiveMessage` calls issued.  Mirrors the loop body line by line:
the `select` on `ctx.Done()` first (partial break or timeout error),
then `doReceive` with its error classification, then the `n == 0`
break. -/
def receiveLoopAux (env : Nat → Step) : Nat → Nat → List Msg → FetchOutcome × Nat
  | 0, _, acc => (.ok acc, 0)
  | rem + 1, iter, acc =>
    match env iter with
    | .ctxDone =>
      if acc.length > 0 then (.ok acc, 0) else (.timedOut, 0)
    | .errTimeout _ =>
      if acc.length > 0 then (.ok acc, 1) else (.timedOut, 1)
    | .errOther e => (.failed e, 1)
    | .batch ms =>
      if ms.length = 0 then (.ok (acc ++ ms), 1)
      else
        let r := receiveLoopAux env rem (iter + 1) (acc ++ ms)
        (r.1, r.2 + 1)

/-- `maxIterations` constant of `ReceiveAll`. -/
def maxIterations : Nat := 25

/-- `SQSService.ReceiveAll`: the guard on `s.QueueURL == ""`, then the
bounded aggregation loop starting at iteration 1 with an empty
accumulator.  Returns the outcome together with the number of
`ReceiveMessage` calls issued. -/
def receiveAllModel (queueURL : String) (env : Nat → Step) : FetchOutcome × Nat :=
  if queueURL = "" then (.notConfigured, 0)
  else receiveLoopAux env maxIterations 1 []

/-- The fields of `SQSService` the embedded operations read.  The
opaque `*sqs.Client` handle is reduced to whether it is nil
(`FetchQueueURL` checks `s.Client == nil`). -/
structure SQSState where
  hasClient : Bool
  queueName : String
  queueURL : String
  region : String
deriving DecidableEq, Repr

/-- Go `strings.Contains(s, sub)`: `sub` occurs as a contiguous
substring of `s`. -/
def goContains (s sub : String) : Bool :=
  decide (List.IsInfix sub.toList s.toList)

/-- `isFIFO` from `internal/service/sqs.go`: `strings.Contains(name, "fifo")`. -/
def isFIFO (name : String) : Bool :=
  goContains name "fifo"

/-- Go `unicode.IsSpace` on the characters Go treats as space in
Latin-1: space, tab, newline, vertical tab, form feed, carriage
return, next line (U+0085) and no-break space (U+00A0). -/
def goIsSpace (c : Char) : Bool :=
  c = ' ' || c = '\t' || c = '\n' || c = Char.ofNat 11 || c = Char.ofNat 12 ||
  c = '\r' || c = Char.ofNat 0x85 || c = Char.ofNat 0xA0

/-- Go `strings.TrimSpace`: drop leading and trailing characters
satisfying `unicode.IsSpace`. -/
def goTrimSpace (s : String) : String :=
  String.mk (((s.data.dropWhile goIsSpace).reverse.dropWhile goIsSpace).reverse)

/-- Go `strings.HasSuffix(s, post)`. -/
def goHasSuffix (s post : String) : Bool :=
  decide (List.IsSuffix post.data s.data)

/-- The `sqs.SendMessageInput` fields `Send` populates. -/
structure SendMessageInput where
  queueUrl : String
  messageBody : String
  messageGroupId : Option String
  messageDeduplicationId : Option String
deriving DecidableEq, Repr

/-- The part of `SQSService.Send` that runs before the `SendMessage`
SDK call: the empty-URL guard, the trimmed-empty-body guard, and the
construction of the input, attaching `MessageGroupId = "default-group"`
and a deduplication id `"<unixnano>-<queueName>"` exactly when
`isFIFO(s.QueueURL)`.  `nowNanos` stands for `time.Now().UnixNano()`. -/
def sendInput (s : SQSState) (msg : String) (nowNanos : Int) : Except String SendMessageInput :=
  if s.queueURL = "" then
    .error "no active queue configured, try to fetch queue info first"
  else if goTrimSpace msg = "" then
    .error "message body cannot be empty"
  else
    let base : SendMessageInput :=
      { queueUrl := s.queueURL, messageBody := msg
        messageGroupId := none, messageDeduplicationId := none }
    if isFIFO s.queueURL then
      .ok { base with
            messageGroupId := some "default-group"
            messageDeduplicationId := some (toString nowNanos ++ "-" ++ s.queueName) }
    else
      .ok base

/-- One backend SDK call, by operation name. -/
inductive BackendCall where
  | getQueueUrl : BackendCall
  | sendMessage : BackendCall
  | receiveMessage : BackendCall
  | purgeQueue : BackendCall
  | getQueueAttributes : BackendCall
deriving DecidableEq, Repr

/-- The SDK calls `Send` issues: none when a guard rejects the message,
one `SendMessage` otherwise.  `Send` never calls `GetQueueUrl`. -/
def sendCalls (s : SQSState) (msg : String) (nowNanos : Int) : List BackendCall :=
  match sendInput s msg nowNanos with
  | .error _ => []
  | .ok _ => [.sendMessage]

/-- `SQSService.Send` in full: the guards and input construction of
`sendInput`, then the `SendMessage` call whose result is the oracle
`callResult`; an SDK error is wrapped as
`"failed to send message: %w"`. -/
def SendModel (s : SQSState) (msg : String) (nowNanos : Int)
    (callResult : Except String Unit) : Except String Unit :=
  match sendInput s msg nowNanos with
  | .error e => .error e
  | .ok _ =>
    match callResult with
    | .error e => .error ("failed to send message: " ++ e)
    | .ok _ => .ok ()

/-- `SQSService.Purge`: the empty-URL guard, then one `PurgeQueue`
call whose result is the oracle `callResult`; an SDK error is wrapped
as `"failed to purge queue: %w"`.  Also reports the SDK calls issued. -/
def PurgeModel (s : SQSState) (callResult : Except String Unit) :
    Except String Unit × List BackendCall :=
  if s.queueURL = "" then
    (.error "no active queue configured, try to fetch queue info first", [])
  else
    match callResult with
    | .error e => (.error ("failed to purge queue: " ++ e), [.purgeQueue])
    | .ok _ => (.ok (), [.purgeQueue])

/-- `SQSService.EnsureQueueConfigured`: fails exactly when both
`QueueURL` and `QueueName` are empty. -/
def ensureQueueConfigured (s : SQSState) : Except String Unit :=
  if s.queueURL = "" ∧ s.queueName = "" then
    .error "please set either queue name or queue URL before performing this action"
  else .ok ()

/-- `SQSService.FetchQueueURL`: the nil-client guard, then the
`GetQueueUrl` lookup whose result is the oracle `resolve`. -/
def fetchQueueURLModel (s : SQSState) (resolve : Except String String) : Except String String :=
  if s.hasClient = false then .error "no AWS client configured"
  else resolve

/-- The map `Info` builds, with one field per key it writes.
`numberOfMessages` models the `number_of_messages` entry (a formatted
string on success, the initial `nil` otherwise); `errMsg` models the
`error` entry, absent until a failure writes it. -/
structure InfoSnapshot where
  currentRegion : String
  queueName : String
  queueURL : String
  numberOfMessages : Option String
  status : String
  errMsg : Option String
  approxVisible : Option Int
  approxNotVisible : Option Int
  approxDelayed : Option Int
deriving DecidableEq, Repr

/-- The trailing part of `Info`: the `GetQueueAttributes` call.  On
error the message is recorded and the snapshot returned as is; on
success the three parsed counters are stored, `number_of_messages`
becomes their formatted sum, and `status` becomes `"ok"`. -/
def infoAttrStep (base : InfoSnapshot) (attrs : Except String (Int × Int × Int)) :
    InfoSnapshot :=
  match attrs with
  | .error e => { base with errMsg := some e }
  | .ok (v, n, d) =>
    { base with
      approxVisible := some v
      approxNotVisible := some n
      approxDelayed := some d
      numberOfMessages := some (toString (v + n + d))
      status := "ok" }

/-- `SQSService.Info` from `internal/service/sqs.go`: builds the base
map (with `status = "not_connected"`), checks configuration, resolves
the queue URL when only a name is bound (updating `s.QueueURL` on
success, leaving the state unchanged on failure), then fetches the
three approximate counters.  The two network results are the oracles
`resolve` and `attrs`; `strconv.ParseInt` of the attribute strings is
abstracted to the already-parsed integers.  Returns the snapshot, the
state after the call, and the SDK calls issued. -/
def InfoModel (s : SQSState) (resolve : Except String String)
    (attrs : Except String (Int × Int × Int)) :
    InfoSnapshot × SQSState × List BackendCall :=
  let base : InfoSnapshot :=
    { currentRegion := s.region, queueName := s.queueName, queueURL := s.queueURL
      numberOfMessages := none, status := "not_connected", errMsg := none
      approxVisible := none, approxNotVisible := none, approxDelayed := none }
  match ensureQueueConfigured s with
  | .error e => ({ base with errMsg := some e }, s, [])
  | .ok _ =>
    if s.queueURL = "" ∧ s.queueName ≠ "" then
      let resolveCalls : List BackendCall := if s.hasClient then [.getQueueUrl] else []
      match fetchQueueURLModel s resolve with
      | .error e => ({ base with errMsg := some e }, s, resolveCalls)
      | .ok u =>
        let s2 := { s with queueURL := u }
        (infoAttrStep { base with queueURL := u } attrs, s2,
          resolveCalls ++ [.getQueueAttributes])
    else
      (infoAttrStep base attrs, s, [.getQueueAttributes])

/-- `handleSend` from `internal/handler/api.go` as (status code,
detail/message): JSON decode failure → 400 with the decode error;
empty decoded message → 400 `"message cannot be empty"`; `Send`
failure → 500 with the error; success → 200. -/
def handleSendModel (s : SQSState) (decoded : Except String String) (nowNanos : Int)
    (callResult : Except String Unit) : Nat × String :=
  match decoded with
  | .error e => (400, e)
  | .ok m =>
    if m = "" then (400, "message cannot be empty")
    else
      match SendModel s m nowNanos callResult with
      | .error e => (500, e)
      | .ok _ => (200, "message sent successfully")

/-- One message rendered as the JSON object the handler's encoder
produces for the `map[string]interface` entry (content escaping not
modelled). -/
def encodeMsgJSON (m : Msg) : String :=
  "\x7b\"MessageId\":\"" ++ m.messageId ++ "\",\"Body\":\"" ++ m.body ++ "\"\x7d"

/-- Go's `json` encoding of the `[]map[string]interface` result slice:
in `ReceiveAll` the slice is the nil slice exactly when no message was
ever appended, and `encoding/json` writes a nil slice as `null`;
otherwise a JSON array of the messages in order. -/
def encodeMessagesBody : List Msg → String
  | [] => "null"
  | ms => "[" ++ String.intercalate "," (ms.map encodeMsgJSON) ++ "]"

/-- `handleMessages` from `internal/handler/api.go` as (status code,
response body): a `ReceiveAll` error becomes a 500 (body abbreviated
to the error detail), a successful result is JSON-encoded as is. -/
def handleMessagesModel (s : SQSState) (env : Nat → Step) : Nat × String :=
  match (receiveAllModel s.queueURL env).1 with
  | .ok msgs => (200, encodeMessagesBody msgs)
  | .notConfigured => (500, "no active queue configured, try to fetch queue info first")
  | .timedOut => (500, "receive operation timed out")
  | .failed e => (500, "failed to receive messages: " ++ e)

/-- Decoded body of `POST /api/config/queue`. -/
structure ChangeQueueBody where
  queue_name : String
  queue_url : String
deriving DecidableEq, Repr

/-- Go `strings.Split` specialised to the one-character separator the
code uses: split a character list at every occurrence of `c`, keeping
empty groups (Go semantics for a nonempty separator). -/
def splitOnChar (c : Char) (cs : List Char) : List (List Char) :=
  cs.foldr (fun x acc => if x = c then [] :: acc else (x :: acc.headD []) :: acc.tail) [[]]

/-- `strings.Split(url, "/")` followed by `parts[len(parts)-1]`. -/
def lastSegment (url : String) : String :=
  String.mk ((splitOnChar '/' url.data).getLastD [])

/-- `NewSQSService`: stores the parameters, then, when a URL was
given, overwrites the queue name with the URL's final path segment.
The freshly constructed `sqs.Client` is non-nil. -/
def newSQSServiceModel (queueName queueURL region : String) : SQSState :=
  let s : SQSState :=
    { hasClient := true, queueName := queueName, queueURL := queueURL, region := region }
  if queueURL ≠ "" then { s with queueName := lastSegment queueURL } else s

/-- `handleChangeQueue` from `internal/handler/api.go`: result is
(status code, active service after the request, whether a new client
and service were constructed).  Decode failure and the empty-identity
check return 400 before any construction; AWS config reload failure
returns 503; otherwise a new service replaces the current one.  The
`awsCfg` oracle yields the region of the reloaded config. -/
def handleChangeQueueModel (cur : Option SQSState) (decoded : Except String ChangeQueueBody)
    (awsCfg : Except String String) : Nat × Option SQSState × Bool :=
  match decoded with
  | .error _ => (400, cur, false)
  | .ok body =>
    if body.queue_name = "" ∧ body.queue_url = "" then (400, cur, false)
    else
      match awsCfg with
      | .error _ => (503, cur, false)
      | .ok region =>
        (200, some (newSQSServiceModel body.queue_name body.queue_url region), true)

/-- The trace yields exactly the batches `bs` (all with nil SDK error)
at consecutive iterations starting at `iter`. -/
def envMatchesBatches (env : Nat → Step) : Nat → List (List Msg) → Bool
  | _, [] => true
  | iter, b :: bs =>
    decide (env iter = Step.batch b) && envMatchesBatches env (iter + 1) bs

/-- Running the fetch loop over a run of nonempty batches appends their
messages, in arrival order, to the accumulator, issues one receive call
per batch, and continues at the following iteration. -/
theorem receiveLoopAux_run_batches (env : Nat → Step) (bs : List (List Msg)) :
    ∀ (iter rem : Nat) (acc : List Msg),
      envMatchesBatches env iter bs = true →
      bs.all (fun b => !b.isEmpty) = true →
      receiveLoopAux env (bs.length + rem) iter acc =
        ((receiveLoopAux env rem (iter + bs.length) (acc ++ bs.flatten)).1,
         (receiveLoopAux env rem (iter + bs.length) (acc ++ bs.flatten)).2 + bs.length) := by
  induction bs with
  | nil =>
    intro iter rem acc _ _
    simp
  | cons b bs ih =>
    intro iter rem acc hm hne
    simp only [envMatchesBatches, Bool.and_eq_true, decide_eq_true_eq] at hm
    obtain ⟨hb, hbs⟩ := hm
    simp only [List.all_cons, Bool.and_eq_true] at hne
    obtain ⟨hbne', hne⟩ := hne
    have hbne : b ≠ [] := by
      cases b with
      | nil => simp at hbne'
      | cons x xs => simp
    have hlen : (b :: bs).length + rem = (bs.length + rem) + 1 := by
      simp [List.length_cons]
      omega
    rw [hlen]
    simp only [receiveLoopAux, hb]
    have hblen : ¬ b.length = 0 := by
      simpa [List.length_eq_zero] using hbne
    rw [if_neg hblen]
    have hstep := ih (iter + 1) rem (acc ++ b) hbs hne
    simp only [hstep]
    have harith : iter + 1 + bs.length = iter + (b :: bs).length := by
      simp [List.length_cons]
      omega
    have happ : acc ++ b ++ bs.flatten = acc ++ (b :: bs).flatten := by
      simp [List.flatten_cons, List.append_assoc]
    rw [harith, happ]
    simp [List.length_cons, Nat.add_assoc]

/-- The fetch loop issues at most `rem` receive calls. -/
theorem receiveLoopAux_calls_le (env : Nat → Step) :
    ∀ (rem iter : Nat) (acc : List Msg), (receiveLoopAux env rem iter acc).2 ≤ rem := by
  intro rem
  induction rem with
  | zero =>
    intro iter acc
    simp [receiveLoopAux]
  | succ rem ih =>
    intro iter acc
    rcases h : env iter with _ | ms | e | e
    · simp only [receiveLoopAux, h]
      split <;> dsimp only <;> omega
    · simp only [receiveLoopAux, h]
      split
      · dsimp only
        omega
      · have hle := ih (iter + 1) (acc ++ ms)
        dsimp only
        omega
    · simp only [receiveLoopAux, h]
      split <;> dsimp only <;> omega
    · simp only [receiveLoopAux, h]
      omega

/-- A nonempty list of nonempty batches flattens to a nonempty list. -/
theorem flatten_ne_nil_of_batches (bs : List (List Msg)) (h1 : bs ≠ [])
    (h2 : bs.all (fun b => !b.isEmpty) = true) : bs.flatten ≠ [] := by
  cases bs with
  | nil => exact absurd rfl h1
  | cons b bs =>
    simp only [List.all_cons, Bool.and_eq_true] at h2
    have hbne : b ≠ [] := by
      cases b with
      | nil => simp at h2
      | cons x xs => simp
    rw [List.flatten_cons]
    intro hcontra
    exact hbne (List.append_eq_nil.mp hcontra).1

/-! Concrete fixtures used by witnesses and counterexamples. -/

def mA : Msg := ⟨"id-a", "body-a"⟩

def mB : Msg := ⟨"id-b", "body-b"⟩

def mC : Msg := ⟨"id-c", "body-c"⟩

def mD : Msg := ⟨"id-d", "body-d"⟩

def mE : Msg := ⟨"id-e", "body-e"⟩

/-- Backend trace: one message, then the overall deadline fires. -/
def envPartialThenDone : Nat → Step
  | 1 => .batch [mA]
  | _ => .ctxDone

/-- Backend trace: the overall deadline has already fired at the first
iteration. -/
def envDoneAtOnce : Nat → Step
  | _ => .ctxDone

/-- Backend trace of Scenario C: batches of 3, 2, then 0 messages. -/
def envScenarioC : Nat → Step
  | 1 => .batch [mA, mB, mC]
  | 2 => .batch [mD, mE]
  | _ => .batch []

/-- **C1**: a fetch (`ReceiveAll`) whose overall deadline or
cancellation fires after at least one message has been accumulated
returns success (no error) with exactly the messages accumulated so
far, in arrival order: after a run of nonempty batches `bs`, a
deadline/cancellation event makes the call return `.ok bs.flatten`. -/
theorem receiveAll_partial_timeout_success (queueURL : String) (env : Nat → Step)
    (bs : List (List Msg))
    (hurl : queueURL ≠ "")
    (hbs : bs ≠ [])
    (hne : bs.all (fun b => !b.isEmpty) = true)
    (hmatch : envMatchesBatches env 1 bs = true)
    (hlen : bs.length < maxIterations)
    (ht : (env (1 + bs.length)).isTimeoutEvent = true) :
    (receiveAllModel queueURL env).1 = .ok bs.flatten := by
  unfold receiveAllModel
  rw [if_neg hurl]
  obtain ⟨rem, hrem⟩ : ∃ rem, maxIterations = bs.length + (rem + 1) :=
    ⟨maxIterations - bs.length - 1, by unfold maxIterations at hlen ⊢; omega⟩
  rw [hrem, receiveLoopAux_run_batches env bs 1 (rem + 1) [] hmatch hne]
  simp only [List.nil_append]
  have hflat : bs.flatten ≠ [] := flatten_ne_nil_of_batches bs hbs hne
  have hpos : 0 < bs.flatten.length := List.length_pos.mpr hflat
  rcases hstep : env (1 + bs.length) with _ | ms | e | e
  · simp only [receiveLoopAux, hstep]
    split
    · rfl
    · next hcond => exact absurd hpos hcond
  · simp [Step.isTimeoutEvent, hstep] at ht
  · simp only [receiveLoopAux, hstep]
    split
    · rfl
    · next hcond => exact absurd hpos hcond
  · simp [Step.isTimeoutEvent, hstep] at ht

theorem receiveAll_partial_timeout_success_witness :
    (receiveAllModel "https://sqs.example/123/orders" envPartialThenDone).1 = .ok [mA] :=
  receiveAll_partial_timeout_success "https://sqs.example/123/orders" envPartialThenDone
    [[mA]] (by decide) (by decide) (by decide) (by decide) (by decide) (by decide)

/-- **C2**: a fetch (`ReceiveAll`) that accumulates zero messages
before its deadline expires returns a timeout error, never an empty
success: when the first loop event is a deadline/cancellation, the
call returns `.timedOut`. -/
theorem receiveAll_zero_message_timeout (queueURL : String) (env : Nat → Step)
    (hurl : queueURL ≠ "") (ht : (env 1).isTimeoutEvent = true) :
    (receiveAllModel queueURL env).1 = .timedOut := by
  unfold receiveAllModel
  rw [if_neg hurl]
  have h25 : maxIterations = 24 + 1 := by decide
  rw [h25]
  rcases hstep : env 1 with _ | ms | e | e
  · simp [receiveLoopAux, hstep]
  · simp [Step.isTimeoutEvent, hstep] at ht
  · simp [receiveLoopAux, hstep]
  · simp [Step.isTimeoutEvent, hstep] at ht

theorem receiveAll_zero_message_timeout_witness :
    (receiveAllModel "https://sqs.example/123/orders" envDoneAtOnce).1 = .timedOut :=
  receiveAll_zero_message_timeout "https://sqs.example/123/orders" envDoneAtOnce
    (by decide) (by decide)

/-- **C4**: a fetch (`ReceiveAll`) issues at most 25 receive calls,
stops the loop at the first call returning zero messages, and returns
all received messages appended in arrival order across batches: after
a run of nonempty batches `bs` followed by an empty batch, the call
returns `.ok bs.flatten` having issued `bs.length + 1` receive calls;
and every call, on every trace, issues at most `maxIterations = 25`
receive calls. -/
theorem receiveAll_batch_aggregation (queueURL : String) (env : Nat → Step)
    (bs : List (List Msg))
    (hurl : queueURL ≠ "")
    (hne : bs.all (fun b => !b.isEmpty) = true)
    (hmatch : envMatchesBatches env 1 bs = true)
    (hlen : bs.length < maxIterations)
    (hempty : env (1 + bs.length) = .batch []) :
    receiveAllModel queueURL env = (.ok bs.flatten, bs.length + 1) ∧
    ∀ (url' : String) (env' : Nat → Step), (receiveAllModel url' env').2 ≤ maxIterations := by
  constructor
  · unfold receiveAllModel
    rw [if_neg hurl]
    obtain ⟨rem, hrem⟩ : ∃ rem, maxIterations = bs.length + (rem + 1) :=
      ⟨maxIterations - bs.length - 1, by unfold maxIterations at hlen ⊢; omega⟩
    rw [hrem, receiveLoopAux_run_batches env bs 1 (rem + 1) [] hmatch hne]
    simp only [List.nil_append]
    simp only [receiveLoopAux, hempty]
    simp [Nat.add_comm]
  · intro url' env'
    unfold receiveAllModel
    split
    · simp [maxIterations]
    · exact receiveLoopAux_calls_le env' maxIterations 1 []

theorem receiveAll_batch_aggregation_witness :
    receiveAllModel "https://sqs.example/123/orders" envScenarioC =
      (.ok [mA, mB, mC, mD, mE], 3) :=
  (receiveAll_batch_aggregation "https://sqs.example/123/orders" envScenarioC
    [[mA, mB, mC], [mD, mE]] (by decide) (by decide) (by decide) (by decide) (by rfl)).1

/-- Backend trace: one message, then a non-timeout receive error. -/
def envPartialThenError : Nat → Step
  | 1 => .batch [mA]
  | _ => .errOther "boom"

/-- Backend trace: one message, then a deadline-exceeded receive
error. -/
def envPartialThenTimeoutErr : Nat → Step
  | 1 => .batch [mA]
  | _ => .errTimeout "context deadline exceeded"

/-- **C3, counterexample**: the claim says a non-timeout receive error
after ≥1 accumulated message is swallowed and the partial result
returned successfully; on the code, a trace with one message and then
a non-timeout error makes `ReceiveAll` return the wrapped error, not
`.ok [mA]`. -/
theorem receiveAll_partial_other_error_counterexample :
    (receiveAllModel "https://sqs.example/123/orders" envPartialThenError).1 = .failed "boom" ∧
    (receiveAllModel "https://sqs.example/123/orders" envPartialThenError).1 ≠ .ok [mA] := by
  decide

/-- **C3, amended**: a non-timeout receive error is propagated
immediately regardless of the accumulator state; only
deadline/cancellation errors are swallowed, and only when at least one
message has already been accumulated, in which case the partial result
is returned successfully. -/
theorem receiveAll_error_policy (env : Nat → Step) :
    (∀ (rem iter : Nat) (acc : List Msg) (e : String),
        0 < rem → env iter = .errOther e →
        (receiveLoopAux env rem iter acc).1 = .failed e) ∧
    (∀ (rem iter : Nat) (acc : List Msg) (e : String),
        0 < rem → acc ≠ [] → env iter = .errTimeout e →
        (receiveLoopAux env rem iter acc).1 = .ok acc) := by
  constructor
  · intro rem iter acc e hrem hstep
    obtain ⟨rem', rfl⟩ : ∃ r, rem = r + 1 := ⟨rem - 1, by omega⟩
    simp [receiveLoopAux, hstep]
  · intro rem iter acc e hrem hacc hstep
    obtain ⟨rem', rfl⟩ : ∃ r, rem = r + 1 := ⟨rem - 1, by omega⟩
    have hpos : 0 < acc.length := List.length_pos.mpr hacc
    simp only [receiveLoopAux, hstep]
    split
    · rfl
    · next hcond => exact absurd hpos hcond

theorem receiveAll_error_policy_witness :
    (receiveLoopAux envPartialThenError 24 2 [mA]).1 = .failed "boom" ∧
    (receiveLoopAux envPartialThenTimeoutErr 24 2 [mA]).1 = .ok [mA] :=
  ⟨(receiveAll_error_policy envPartialThenError).1 24 2 [mA] "boom"
      (by decide) (by decide),
   (receiveAll_error_policy envPartialThenTimeoutErr).2 24 2 [mA]
      "context deadline exceeded" (by decide) (by decide) (by decide)⟩

/-- A session whose queue URL is already resolved. -/
def sResolved : SQSState :=
  ⟨true, "orders", "https://sqs.example/123/orders", "us-east-1"⟩

/-- **C5, counterexample**: the claim says a failing attribute lookup
yields a snapshot with `status = "error"`; on the code, the `Info` of
`internal/service/sqs.go` leaves `status` at its initial
`"not_connected"` and only records the message in the `error` field. -/
theorem info_attr_failure_counterexample :
    (InfoModel sResolved (.ok "unused") (.error "access denied")).1.status = "not_connected" ∧
    (InfoModel sResolved (.ok "unused") (.error "access denied")).1.errMsg =
      some "access denied" ∧
    ¬ (InfoModel sResolved (.ok "unused") (.error "access denied")).1.status = "error" := by
  decide

/-- **C5, amended**: for every status request on a configured session
with a resolved endpoint, if the bounded attribute-lookup call fails
the snapshot keeps `status = "not_connected"` (its initial value) and
carries the failure message in its error field; the operation itself
never fails — `InfoModel` is total and always yields a snapshot. -/
theorem info_attr_failure_snapshot (s : SQSState) (resolve : Except String String) (e : String)
    (hurl : s.queueURL ≠ "") :
    (InfoModel s resolve (.error e)).1.status = "not_connected" ∧
    (InfoModel s resolve (.error e)).1.errMsg = some e := by
  have hcfg : ensureQueueConfigured s = .ok () := by
    unfold ensureQueueConfigured
    rw [if_neg (fun h => hurl h.1)]
  have hcond : ¬ (s.queueURL = "" ∧ s.queueName ≠ "") := fun h => hurl h.1
  simp [InfoModel, hcfg, if_neg hcond, infoAttrStep]

theorem info_attr_failure_snapshot_witness :
    (InfoModel sResolved (.ok "unused") (.error "boom")).1.status = "not_connected" ∧
    (InfoModel sResolved (.ok "unused") (.error "boom")).1.errMsg = some "boom" :=
  info_attr_failure_snapshot sResolved (.ok "unused") "boom" (by decide)

/-- A session whose queue name has "fifo" inside but not as the
`.fifo` suffix; its URL ends in that name. -/
def sFifoInfix : SQSState :=
  ⟨true, "myfifo-queue", "https://sqs.example/123/myfifo-queue", "us-east-1"⟩

/-- **C6, counterexample**: the claim says a message-group id is
attached exactly when the queue name ends in ".fifo"; on the code,
`Send` tests `strings.Contains(s.QueueURL, "fifo")`, so a queue whose
name (and URL) merely contain "fifo" without the ".fifo" suffix still
gets a group id attached. -/
theorem send_fifo_suffix_counterexample :
    goHasSuffix sFifoInfix.queueName ".fifo" = false ∧
    goHasSuffix sFifoInfix.queueURL ".fifo" = false ∧
    sendInput sFifoInfix "hello" 7 =
      .ok { queueUrl := "https://sqs.example/123/myfifo-queue", messageBody := "hello"
            messageGroupId := some "default-group"
            messageDeduplicationId := some "7-myfifo-queue" } := by
  decide

/-- **C6, amended**: `Send` attaches the FIFO message-group id (and a
deduplication id) exactly when `isFIFO(s.QueueURL)` holds, i.e. when
the queue URL contains "fifo" as a substring — not when the queue name
ends in ".fifo". -/
theorem send_group_id_iff_url_contains_fifo (s : SQSState) (msg : String) (now : Int)
    (hurl : s.queueURL ≠ "") (hmsg : goTrimSpace msg ≠ "") :
    (isFIFO s.queueURL = true →
        sendInput s msg now = .ok
          { queueUrl := s.queueURL, messageBody := msg
            messageGroupId := some "default-group"
            messageDeduplicationId := some (toString now ++ "-" ++ s.queueName) }) ∧
    (isFIFO s.queueURL = false →
        sendInput s msg now = .ok
          { queueUrl := s.queueURL, messageBody := msg
            messageGroupId := none, messageDeduplicationId := none }) := by
  constructor
  · intro hf
    simp only [sendInput, if_neg hurl, if_neg hmsg, if_pos hf]
  · intro hf
    simp only [sendInput, if_neg hurl, if_neg hmsg]
    rw [if_neg (by simp [hf])]

theorem send_group_id_iff_url_contains_fifo_witness :
    sendInput sFifoInfix "ping" 7 =
      .ok { queueUrl := "https://sqs.example/123/myfifo-queue", messageBody := "ping"
            messageGroupId := some "default-group"
            messageDeduplicationId := some "7-myfifo-queue" } :=
  (send_group_id_iff_url_contains_fifo sFifoInfix "ping" 7
    (by decide) (by decide)).1 (by decide)

/-- Backend trace of a drained queue: the very first receive call
returns an empty batch. -/
def envDrainedAtOnce : Nat → Step
  | _ => .batch []

/-- **C7**: the claim (and the spec's interface table) says a fetch
that completes successfully with zero messages yields an empty JSON
array, never `null`; evaluating the code at that input shows the
handler returns HTTP 200 with body `null`: the accumulator of
`ReceiveAll` is still the nil slice when the queue is drained on the
first call and `encoding/json` writes a nil slice as `null`.  (An
earlier revision of the handler in this repository explicitly encoded
`[]` for the empty result, with the comment "return empty array, not
null", so the claim matches the documented intent and the current code
is the slip.) -/
theorem handleMessages_drained_returns_null :
    handleMessagesModel sResolved envDrainedAtOnce = (200, "null") ∧
    "null" ≠ "[]" := by
  decide

/-- Request body with both identity fields empty. -/
def emptyIdentity : ChangeQueueBody := ⟨"", ""⟩

/-- **C8**: a reconfiguration request (`POST /api/config/queue`) whose
identity has empty name and empty url fails with HTTP 400, leaves the
active service exactly as it was, and constructs no new backend
handle. -/
theorem changeQueue_rejects_empty_identity (cur : Option SQSState) (body : ChangeQueueBody)
    (awsCfg : Except String String)
    (hname : body.queue_name = "") (hurl : body.queue_url = "") :
    handleChangeQueueModel cur (.ok body) awsCfg = (400, cur, false) := by
  simp only [handleChangeQueueModel]
  rw [if_pos ⟨hname, hurl⟩]

theorem changeQueue_rejects_empty_identity_witness :
    handleChangeQueueModel (some sResolved) (.ok emptyIdentity) (.ok "us-east-1") =
      (400, some sResolved, false) :=
  changeQueue_rejects_empty_identity (some sResolved) emptyIdentity (.ok "us-east-1") rfl rfl

/-- A session bound to a queue name whose URL resolution has not yet
succeeded. -/
def sUnresolved : SQSState := ⟨true, "orders", "", "us-east-1"⟩

/-- **C9, counterexample**: the claim says every operation that needs
the endpoint — send, fetch, purge and status — attempts resolution on
that call; on the code, `Send` against a bound-but-unresolved session
returns the not-configured error immediately and issues no backend
call at all (in particular no `GetQueueUrl`). -/
theorem send_no_resolution_counterexample :
    sendInput sUnresolved "hello" 0 =
      .error "no active queue configured, try to fetch queue info first" ∧
    sendCalls sUnresolved "hello" 0 = [] := by
  decide

/-- **C9, amended**: of the operations that need the endpoint, only
the status operation (`Info`) attempts lazy resolution: `Send`,
`ReceiveAll` and `Purge` against an unresolved session return the
not-configured error immediately with no backend call.  `Info`
attempts resolution on every such call, and a failed resolution leaves
the session unchanged — so a failure never permanently disables the
session: the next status call retries. -/
theorem lazy_resolution_only_on_status (s : SQSState) (msg : String) (now : Int)
    (env : Nat → Step) (purgeRes : Except String Unit)
    (attrs : Except String (Int × Int × Int)) (e : String)
    (hurl : s.queueURL = "") (hname : s.queueName ≠ "") (hcl : s.hasClient = true) :
    sendInput s msg now =
      .error "no active queue configured, try to fetch queue info first" ∧
    sendCalls s msg now = [] ∧
    receiveAllModel s.queueURL env = (.notConfigured, 0) ∧
    (PurgeModel s purgeRes).1 =
      .error "no active queue configured, try to fetch queue info first" ∧
    (PurgeModel s purgeRes).2 = [] ∧
    (∀ (resolve : Except String String) (attrs' : Except String (Int × Int × Int)),
        BackendCall.getQueueUrl ∈ (InfoModel s resolve attrs').2.2) ∧
    (InfoModel s (.error e) attrs).2.1 = s := by
  have hcfg : ensureQueueConfigured s = .ok () := by
    unfold ensureQueueConfigured
    rw [if_neg (fun h => hname h.2)]
  have hcond : s.queueURL = "" ∧ s.queueName ≠ "" := ⟨hurl, hname⟩
  refine ⟨?_, ?_, ?_, ?_, ?_, ?_, ?_⟩
  · simp [sendInput, hurl]
  · simp [sendCalls, sendInput, hurl]
  · simp [receiveAllModel, hurl]
  · simp [PurgeModel, hurl]
  · simp [PurgeModel, hurl]
  · intro resolve attrs'
    simp only [InfoModel, hcfg, if_pos hcond, fetchQueueURLModel, hcl]
    rcases resolve with e' | u
    · simp [hcl]
    · simp [hcl]
  · simp only [InfoModel, hcfg, if_pos hcond, fetchQueueURLModel, hcl]
    simp

theorem lazy_resolution_only_on_status_witness :
    sendCalls sUnresolved "hello" 0 = [] ∧
    BackendCall.getQueueUrl ∈
      (InfoModel sUnresolved (.error "not found") (.ok (0, 0, 0))).2.2 ∧
    (InfoModel sUnresolved (.error "not found") (.ok (0, 0, 0))).2.1 = sUnresolved :=
  ⟨(lazy_resolution_only_on_status sUnresolved "hello" 0 envDoneAtOnce (.ok ())
      (.ok (0, 0, 0)) "not found" rfl (by decide) rfl).2.1,
   (lazy_resolution_only_on_status sUnresolved "hello" 0 envDoneAtOnce (.ok ())
      (.ok (0, 0, 0)) "not found" rfl (by decide) rfl).2.2.2.2.2.1
      (.error "not found") (.ok (0, 0, 0)),
   (lazy_resolution_only_on_status sUnresolved "hello" 0 envDoneAtOnce (.ok ())
      (.ok (0, 0, 0)) "not found" rfl (by decide) rfl).2.2.2.2.2.2⟩

/-- **C10**: a request body whose message is non-empty but all
whitespace passes the handler's `req.Message == ""` check, and `Send`
then rejects it before issuing any backend call (`SendMessage` call
count = 0), surfacing the error "message body cannot be empty" (as the
500 response detail). -/
theorem whitespace_send_rejected_before_backend (s : SQSState) (m : String) (now : Int)
    (callRes : Except String Unit)
    (hm : m ≠ "") (hws : goTrimSpace m = "") (hurl : s.queueURL ≠ "") :
    handleSendModel s (.ok m) now callRes = (500, "message body cannot be empty") ∧
    sendCalls s m now = [] := by
  have hsend : sendInput s m now = .error "message body cannot be empty" := by
    simp only [sendInput, if_neg hurl]
    rw [if_pos hws]
  constructor
  · simp only [handleSendModel, if_neg hm]
    simp [SendModel, hsend]
  · simp [sendCalls, hsend]

theorem whitespace_send_rejected_before_backend_witness :
    handleSendModel sResolved (.ok " ") 0 (.ok ()) =
      (500, "message body cannot be empty") ∧
    sendCalls sResolved " " 0 = [] :=
  whitespace_send_rejected_before_backend sResolved " " 0 (.ok ())
    (by decide) (by decide) (by decide)
